import Mathlib

/-!
Verification development for the virtual SFTP filesystem of `pkg/srvconn/sftpfile.go`
(jumpserver koko).  The Go source is shallowly embedded: pure helpers become Lean
functions, the stateful `AssetDir` operations become functions threading the
per-credential connection cache explicitly, the connection broker and the remote
SFTP server are oracles passed in as arguments, and every emitted audit record and
every outgoing call (connection setup, remote SFTP call) is collected in the result.
-/

namespace Koko

/-! ## Go string/path helpers (strings.TrimPrefix, filepath.Clean, filepath.Join).
All of them are built on structural `List Char` recursion so that concrete
evaluation reduces in the kernel. -/

/-- Whether the first list is a prefix of the second. -/
def leadsWith : List Char → List Char → Bool
  | [], _ => true
  | _ :: _, [] => false
  | p :: ps, c :: cs => p == c && leadsWith ps cs

/-- Embedding of Go `strings.HasPrefix(s, pre)`. -/
def strStartsWith (s pre : String) : Bool :=
  leadsWith pre.data s.data

/-- Embedding of Go `strings.TrimPrefix(s, pre)`. -/
def trimStart (s pre : String) : String :=
  if strStartsWith s pre then String.mk (s.data.drop pre.data.length) else s

/-- Split a character list around every occurrence of `sep`. -/
def splitChar (sep : Char) : List Char → List (List Char)
  | [] => [[]]
  | c :: cs =>
    if c == sep then [] :: splitChar sep cs
    else
      match splitChar sep cs with
      | [] => [[c]]
      | g :: gs => (c :: g) :: gs

/-- Embedding of Go `strings.Split(s, "/")` (the only separator used). -/
def strSplitSlash (s : String) : List String :=
  (splitChar (Char.ofNat 47) s.data).map String.mk

/-- Embedding of Go `strings.Join(l, sep)`. -/
def strJoin (sep : String) (l : List String) : String :=
  match l with
  | [] => ""
  | s :: rest => rest.foldl (fun acc t => acc ++ sep ++ t) s

/-- ASCII lower-casing of one character (Go `strings.ToLower` per rune; only the
ASCII range matters for the roots compared here). -/
def lowerChar (c : Char) : Char :=
  if 65 ≤ c.toNat ∧ c.toNat ≤ 90 then Char.ofNat (c.toNat + 32) else c

/-- Embedding of Go `strings.ToLower`. -/
def strToLower (s : String) : String :=
  String.mk (s.data.map lowerChar)

/-- Embedding of Go `strings.ReplaceAll(s, "/", "_")` (single-character
replacement, so a character map). -/
def replaceSlash (s : String) : String :=
  String.mk (s.data.map (fun c => if c == Char.ofNat 47 then Char.ofNat 95 else c))

/-- Embedding of Go `strings.Contains(s, "/")`. -/
def containsSlash (s : String) : Bool :=
  s.data.contains (Char.ofNat 47)

/-- Element processing loop of Go `path/filepath.Clean` (unix): skip empty and `.`
elements, resolve `..` against the stack, keeping leading `..` only in relative
paths. `acc` is the processed stack in reverse order. -/
def cleanParts (rooted : Bool) : List String → List String → List String
  | acc, [] => acc.reverse
  | acc, e :: rest =>
    if e = "" ∨ e = "." then cleanParts rooted acc rest
    else if e = ".." then
      match acc with
      | top :: acc2 =>
        if top = ".." then cleanParts rooted (".." :: top :: acc2) rest
        else cleanParts rooted acc2 rest
      | [] =>
        if rooted then cleanParts rooted [] rest
        else cleanParts rooted [".."] rest
    else cleanParts rooted (e :: acc) rest

/-- Embedding of Go `path/filepath.Clean` for unix paths. -/
def goClean (p : String) : String :=
  if p = "" then "."
  else
    let rooted := strStartsWith p "/"
    let stack := cleanParts rooted [] (strSplitSlash p)
    let s := strJoin "/" stack
    if rooted then "/" ++ s
    else if s = "" then "." else s

/-- Embedding of Go `path/filepath.Join(a, b)`: empty elements are ignored and the
result is Cleaned; joining two empty strings yields the empty string. -/
def goJoin (a b : String) : String :=
  if a = "" ∧ b = "" then ""
  else if a = "" then goClean b
  else if b = "" then goClean a
  else goClean (a ++ "/" ++ b)

/-! ## Data model -/

/-- Modelled from the spec: the credential action set `{Connect, Upload, Download, All}`
(the `model` package action constants are consumed by `sftpfile.go` but are not part
of the given source tree). -/
inductive Action where
  | connect
  | upload
  | download
  | all
deriving DecidableEq, Repr

/-- Modelled from the spec: the audit-record operation tags
`{Upload, Download, Mkdir, Rename, Symlink, Delete, RemoveDir}` (the `model` package
operate constants are consumed by `sftpfile.go` but are not part of the given
source tree). -/
inductive Operate where
  | upload
  | download
  | mkdir
  | rename
  | symlink
  | delete
  | removeDir
deriving DecidableEq, Repr

/-- The fields of `model.SystemUser` (a credential) that `sftpfile.go` reads. -/
structure SystemUser where
  id : String
  name : String
  protocol : String
  sftpRoot : String
  actions : List Action
deriving DecidableEq, Repr

/-- `SftpConn`: a live SFTP connection plus the remote home directory reported at
session start.  `connId` models the identity of the Go heap object so that the
pointer comparison `conn1 != conn2` in `Rename`/`Symlink` is expressible. -/
structure SftpConn where
  homeDirPath : String
  connId : Nat
deriving DecidableEq, Repr

/-- The fields of `AssetDir` that the file operations read, with the Go maps
`suMaps` (folder name → credential) and `sftpClients` (credential id → connection)
embedded as association lists. -/
structure AssetDir where
  userName : String
  userUsername : String
  hostname : String
  orgID : String
  addr : String
  suMaps : List (String × SystemUser)
  sftpClients : List (String × SftpConn)
  showHidden : Bool
deriving DecidableEq, Repr

/-- The audit record built by `AssetDir.CreateFTPLog` (the `DateStart` wall-clock
field is omitted from the model). -/
structure FTPLog where
  user : String
  hostname : String
  orgID : String
  systemUser : String
  remoteAddr : String
  operate : Operate
  path : String
  isSuccess : Bool
deriving DecidableEq, Repr

/-- The part of `os.FileInfo` that `sftpfile.go` inspects on remote entries. -/
structure FInfo where
  name : String
  isDir : Bool
deriving DecidableEq, Repr

/-- `FakeFileInfo` from the source (synthetic entry). -/
structure FakeFileInfo where
  name : String
  isDir : Bool
  size : Int
  symlink : String
deriving DecidableEq, Repr

/-- `NewFakeFile` from the source. -/
def NewFakeFile (name : String) (isDir : Bool) : FakeFileInfo :=
  { name := name, isDir := isDir, size := 0, symlink := "" }

/-- A directory entry returned by `AssetDir.ReadDir`: either a synthetic
`FakeFileInfo` (credential layer) or an entry coming from the remote listing. -/
inductive DirEntry where
  | fake (f : FakeFileInfo)
  | real (f : FInfo)
deriving DecidableEq, Repr

def DirEntry.name : DirEntry → String
  | .fake f => f.name
  | .real f => f.name

/-- Abstract error value returned by a remote SFTP call. -/
abbrev RemoteErr := Nat

/-- One remote SFTP call issued through a connection's `*sftp.Client`. -/
inductive RemoteCall where
  | create (p : String)
  | openFile (p : String)
  | readDir (p : String)
  | readLink (p : String)
  | stat (p : String)
  | mkdirAll (p : String)
  | rename (o n : String)
  | symlink (o n : String)
  | remove (p : String)
  | removeDirectory (p : String)
deriving DecidableEq, Repr

/-- An outgoing event of an operation: a connection setup attempt for a credential
id (the broker being consulted) or a remote SFTP call. -/
inductive CallEvent where
  | connect (suId : String)
  | remote (c : RemoteCall)
deriving DecidableEq, Repr

/-- The remote directory tree used by the recursive `removeDirectoryAll`: an entry
is a plain file or a directory with its own entries. -/
inductive FTree where
  | file (name : String)
  | dir (name : String) (entries : List FTree)
deriving Repr

/-- Oracle for the remote side: which calls fail (and with which error), and the
data returned by successful `ReadDir`/`ReadLink`/`Stat` calls; `tree p` is the
directory tree found below path `p` by the recursive removal walk. -/
structure Remote where
  fail : RemoteCall → Option RemoteErr
  lsR : String → List FInfo
  readLinkR : String → String
  statR : String → FInfo
  tree : String → List FTree

/-- Errors surfaced by the `AssetDir` operations: the sftp status errors used in
the source, plus `noSystemUser` (`errNoSystemUser`, the spec's *NoCredential*) and
remote errors forwarded unchanged. -/
inductive SErr where
  | permissionDenied
  | connectionLost
  | noSuchFile
  | opUnsupported
  | noSystemUser
  | remote (e : RemoteErr)
deriving DecidableEq, Repr

/-- Outcome of an operation: a value, an error, or `crash` for a Go nil-pointer
dereference (reachable in `Rename`/`Symlink`, which use the connection without a
nil check). -/
inductive Res (α : Type) where
  | ok (a : α)
  | err (e : SErr)
  | crash
deriving DecidableEq, Repr

/-- Full observable outcome of one `AssetDir` operation: its result, the updated
`AssetDir` (connection cache), the audit records sent on the log channel, and the
outgoing calls in order. -/
structure OpOut (α : Type) where
  res : Res α
  ad : AssetDir
  logs : List FTPLog
  calls : List CallEvent
deriving DecidableEq, Repr

/-- Result of `GetSFTPAndRealPath`: the connection (`none` embeds Go's nil), the
rewritten real path (`""` on failure, as in the source), the updated cache and the
connection-setup events. -/
structure ConnOut where
  conn : Option SftpConn
  realPath : String
  ad : AssetDir
  calls : List CallEvent
deriving DecidableEq, Repr

/-- A broker (`AssetDir.GetSftpClient`) oracle: what connection, if any, a setup
attempt for a credential id produces. -/
abbrev Broker := String → Option SftpConn

/-! ## AssetDir helpers from the source -/

/-- `AssetDir.parsePath`: strip one leading `/`, split on `/`. -/
def parsePath (path : String) : List String :=
  strSplitSlash (trimStart path "/")

/-- Go map lookup `ad.suMaps[folderName]`. -/
def lookupSu (ad : AssetDir) (folderName : String) : Option SystemUser :=
  (ad.suMaps.find? (fun p => p.1 == folderName)).map (·.2)

/-- `AssetDir.getSubFolderNames`. -/
def getSubFolderNames (ad : AssetDir) : List String :=
  ad.suMaps.map (·.1)

/-- `AssetDir.IsUniqueSu`. -/
def IsUniqueSu (ad : AssetDir) : String × Bool :=
  let sus := getSubFolderNames ad
  if sus.length = 1 then (sus.headD "", true) else ("", false)

/-- `AssetDir.validatePermission`: the credential's action set must contain the
required action or `All`. -/
def validatePermission (su : SystemUser) (action : Action) : Bool :=
  su.actions.any (fun a => a == action || a == Action.all)

/-- The sandbox rewrite performed inside `GetSFTPAndRealPath` once a connection is
available: roots `""`/`"~"`/`"home"` (case-insensitively) map into the remote home
directory, any other root is made absolute and used as the sandbox root. -/
def realPathFor (su : SystemUser) (conn : SftpConn) (path : String) : String :=
  if strToLower su.sftpRoot = "home" ∨ strToLower su.sftpRoot = "~" ∨
      strToLower su.sftpRoot = "" then
    goJoin conn.homeDirPath (trimStart path "/")
  else
    goJoin (if ¬ strStartsWith su.sftpRoot "/" then "/" ++ su.sftpRoot else su.sftpRoot)
      (trimStart path "/")

/-- `AssetDir.GetSFTPAndRealPath`: look up the cached connection for the
credential; on a miss consult the broker and cache the result; on broker failure
return `(nil, "")`.  The returned event list records whether the broker was
consulted. -/
def GetSFTPAndRealPath (broker : Broker) (ad : AssetDir) (su : SystemUser)
    (path : String) : ConnOut :=
  match ad.sftpClients.find? (fun p => p.1 == su.id) with
  | some pr => { conn := some pr.2, realPath := realPathFor su pr.2 path, ad := ad, calls := [] }
  | none =>
    match broker su.id with
    | none => { conn := none, realPath := "", ad := ad, calls := [CallEvent.connect su.id] }
    | some conn =>
      { conn := some conn
        realPath := realPathFor su conn path
        ad := { ad with sftpClients := ad.sftpClients ++ [(su.id, conn)] }
        calls := [CallEvent.connect su.id] }

/-- `AssetDir.CreateFTPLog` (the record sent on the log channel). -/
def CreateFTPLog (ad : AssetDir) (su : SystemUser) (operate : Operate)
    (filename : String) (isSuccess : Bool) : FTPLog :=
  { user := ad.userName ++ "(" ++ ad.userUsername ++ ")"
    hostname := ad.hostname
    orgID := ad.orgID
    systemUser := su.name
    remoteAddr := ad.addr
    operate := operate
    path := filename
    isSuccess := isSuccess }

/-- `os.ModeDir` bit. -/
def ModeDir : Nat := 2 ^ 31

/-- `AssetDir.Mode`: `0444|DIR` when more than one credential, otherwise
`0644|DIR`. -/
def AssetDir.Mode (ad : AssetDir) : Nat :=
  if ad.suMaps.length > 1 then 0o444 ||| ModeDir else 0o644 ||| ModeDir

/-- Lift the error of a remote call into an operation result. -/
def resOfFail : Option RemoteErr → Res Unit
  | none => Res.ok ()
  | some e => Res.err (SErr.remote e)

/-! ## Recursive removal (`AssetDir.removeDirectoryAll`) -/

mutual

/-- `AssetDir.removeDirectoryAll(conn, path)` with the directory content below
`path` given as `entries`: issue `ReadDir path`, process each entry (files are
removed, directories are removed recursively), then remove `path` itself; the
first failing call aborts.  Returns the error (if any) and the calls issued in
order. -/
def removeDirectoryAll (fail : RemoteCall → Option RemoteErr) (path : String)
    (entries : List FTree) : Option RemoteErr × List RemoteCall :=
  match fail (RemoteCall.readDir path) with
  | some e => (some e, [RemoteCall.readDir path])
  | none =>
    match (removeEntries fail path entries).1 with
    | some e => (some e, RemoteCall.readDir path :: (removeEntries fail path entries).2)
    | none =>
      (fail (RemoteCall.removeDirectory path),
       RemoteCall.readDir path ::
         ((removeEntries fail path entries).2 ++ [RemoteCall.removeDirectory path]))

/-- The entry loop of `removeDirectoryAll`: each file is removed with `Remove`,
each directory handled by a recursive `removeDirectoryAll`; the first error
aborts the loop. -/
def removeEntries (fail : RemoteCall → Option RemoteErr) (path : String) :
    List FTree → Option RemoteErr × List RemoteCall
  | [] => (none, [])
  | FTree.file name :: rest =>
    match fail (RemoteCall.remove (goJoin path name)) with
    | some e => (some e, [RemoteCall.remove (goJoin path name)])
    | none =>
      ((removeEntries fail path rest).1,
       RemoteCall.remove (goJoin path name) :: (removeEntries fail path rest).2)
  | FTree.dir name sub :: rest =>
    match (removeDirectoryAll fail (goJoin path name) sub).1 with
    | some e => (some e, (removeDirectoryAll fail (goJoin path name) sub).2)
    | none =>
      ((removeEntries fail path rest).1,
       (removeDirectoryAll fail (goJoin path name) sub).2 ++ (removeEntries fail path rest).2)

end

mutual

/-- The full (failure-free) call sequence of `removeDirectoryAll` on a tree:
`ReadDir` on the root first, then the calls for the entries, then the
`RemoveDirectory` of the root last (bottom-up). -/
def fullTrace (path : String) (entries : List FTree) : List RemoteCall :=
  RemoteCall.readDir path :: (fullForest path entries ++ [RemoteCall.removeDirectory path])

/-- The failure-free call sequence for a list of entries under `path`. -/
def fullForest (path : String) : List FTree → List RemoteCall
  | [] => []
  | FTree.file name :: rest =>
    RemoteCall.remove (goJoin path name) :: fullForest path rest
  | FTree.dir name sub :: rest =>
    fullTrace (goJoin path name) sub ++ fullForest path rest

end

/-- Run a planned call sequence against the failure oracle, stopping at (and
including) the first failing call; returns that call's error and the calls
actually issued. -/
def traceUntilFail (fail : RemoteCall → Option RemoteErr) :
    List RemoteCall → Option RemoteErr × List RemoteCall
  | [] => (none, [])
  | c :: rest =>
    match fail c with
    | some e => (some e, [c])
    | none => ((traceUntilFail fail rest).1, c :: (traceUntilFail fail rest).2)

/-! ## The AssetDir file operations -/

/-- `AssetDir.Create`. -/
def Create (broker : Broker) (rm : Remote) (ad : AssetDir) (path : String) :
    OpOut Unit :=
  let pathData := parsePath path
  let u := IsUniqueSu ad
  if ¬ u.2 ∧ pathData = [""] then
    ⟨Res.err SErr.permissionDenied, ad, [], []⟩
  else
    let folderName := if u.2 then u.1 else pathData.headD ""
    let pd := if u.2 then pathData else pathData.tail
    match lookupSu ad folderName with
    | none => ⟨Res.err SErr.noSystemUser, ad, [], []⟩
    | some su =>
      if ¬ validatePermission su Action.upload then
        ⟨Res.err SErr.permissionDenied, ad, [], []⟩
      else
        let g := GetSFTPAndRealPath broker ad su (strJoin "/" pd)
        match g.conn with
        | none => ⟨Res.err SErr.connectionLost, g.ad, [], g.calls⟩
        | some _ =>
          let e := rm.fail (RemoteCall.create g.realPath)
          ⟨resOfFail e, g.ad,
           [CreateFTPLog g.ad su Operate.upload g.realPath e.isNone],
           g.calls ++ [CallEvent.remote (RemoteCall.create g.realPath)]⟩

/-- `AssetDir.MkdirAll`. -/
def MkdirAll (broker : Broker) (rm : Remote) (ad : AssetDir) (path : String) :
    OpOut Unit :=
  let pathData := parsePath path
  let u := IsUniqueSu ad
  if ¬ u.2 ∧ pathData = [""] then
    ⟨Res.err SErr.permissionDenied, ad, [], []⟩
  else
    let folderName := if u.2 then u.1 else pathData.headD ""
    let pd := if u.2 then pathData else pathData.tail
    match lookupSu ad folderName with
    | none => ⟨Res.err SErr.noSystemUser, ad, [], []⟩
    | some su =>
      if ¬ validatePermission su Action.upload then
        ⟨Res.err SErr.permissionDenied, ad, [], []⟩
      else
        let g := GetSFTPAndRealPath broker ad su (strJoin "/" pd)
        match g.conn with
        | none => ⟨Res.err SErr.connectionLost, g.ad, [], g.calls⟩
        | some _ =>
          let e := rm.fail (RemoteCall.mkdirAll g.realPath)
          ⟨resOfFail e, g.ad,
           [CreateFTPLog g.ad su Operate.mkdir g.realPath e.isNone],
           g.calls ++ [CallEvent.remote (RemoteCall.mkdirAll g.realPath)]⟩

/-- `AssetDir.Open` (requires the Download action). -/
def Open (broker : Broker) (rm : Remote) (ad : AssetDir) (path : String) :
    OpOut Unit :=
  let pathData := parsePath path
  let u := IsUniqueSu ad
  if ¬ u.2 ∧ pathData = [""] then
    ⟨Res.err SErr.permissionDenied, ad, [], []⟩
  else
    let folderName := if u.2 then u.1 else pathData.headD ""
    let pd := if u.2 then pathData else pathData.tail
    match lookupSu ad folderName with
    | none => ⟨Res.err SErr.noSystemUser, ad, [], []⟩
    | some su =>
      if ¬ validatePermission su Action.download then
        ⟨Res.err SErr.permissionDenied, ad, [], []⟩
      else
        let g := GetSFTPAndRealPath broker ad su (strJoin "/" pd)
        match g.conn with
        | none => ⟨Res.err SErr.connectionLost, g.ad, [], g.calls⟩
        | some _ =>
          let e := rm.fail (RemoteCall.openFile g.realPath)
          ⟨resOfFail e, g.ad,
           [CreateFTPLog g.ad su Operate.download g.realPath e.isNone],
           g.calls ++ [CallEvent.remote (RemoteCall.openFile g.realPath)]⟩

/-- `AssetDir.ReadDir`: on the virtual root with a visible credential layer it
lists the credential folders as synthetic directories without touching the
network; otherwise it forwards to the remote and filters hidden entries when
`ShowHidden` is false. -/
def ReadDir (broker : Broker) (rm : Remote) (ad : AssetDir) (path : String) :
    OpOut (List DirEntry) :=
  let pathData := parsePath path
  let u := IsUniqueSu ad
  if ¬ u.2 ∧ pathData = [""] then
    ⟨Res.ok (ad.suMaps.map (fun p => DirEntry.fake (NewFakeFile p.1 true))), ad, [], []⟩
  else
    let folderName := if u.2 then u.1 else pathData.headD ""
    let pd := if u.2 then pathData else pathData.tail
    match lookupSu ad folderName with
    | none => ⟨Res.err SErr.noSystemUser, ad, [], []⟩
    | some su =>
      if ¬ validatePermission su Action.connect then
        ⟨Res.err SErr.permissionDenied, ad, [], []⟩
      else
        let g := GetSFTPAndRealPath broker ad su (strJoin "/" pd)
        match g.conn with
        | none => ⟨Res.err SErr.connectionLost, g.ad, [], g.calls⟩
        | some _ =>
          let calls := g.calls ++ [CallEvent.remote (RemoteCall.readDir g.realPath)]
          match rm.fail (RemoteCall.readDir g.realPath) with
          | some e => ⟨Res.err (SErr.remote e), g.ad, [], calls⟩
          | none =>
            let res := (rm.lsR g.realPath).map DirEntry.real
            if ¬ ad.showHidden then
              ⟨Res.ok (res.filter (fun fi => ¬ strStartsWith (DirEntry.name fi) ".")),
               g.ad, [], calls⟩
            else
              ⟨Res.ok res, g.ad, [], calls⟩

/-- `AssetDir.ReadLink` (`OpUnsupported` on the virtual root). -/
def ReadLink (broker : Broker) (rm : Remote) (ad : AssetDir) (path : String) :
    OpOut String :=
  let pathData := parsePath path
  if pathData = [""] then
    ⟨Res.err SErr.opUnsupported, ad, [], []⟩
  else
    let u := IsUniqueSu ad
    let folderName := if u.2 then u.1 else pathData.headD ""
    let pd := if u.2 then pathData else pathData.tail
    match lookupSu ad folderName with
    | none => ⟨Res.err SErr.noSystemUser, ad, [], []⟩
    | some su =>
      if ¬ validatePermission su Action.connect then
        ⟨Res.err SErr.permissionDenied, ad, [], []⟩
      else
        let g := GetSFTPAndRealPath broker ad su (strJoin "/" pd)
        match g.conn with
        | none => ⟨Res.err SErr.connectionLost, g.ad, [], g.calls⟩
        | some _ =>
          let calls := g.calls ++ [CallEvent.remote (RemoteCall.readLink g.realPath)]
          match rm.fail (RemoteCall.readLink g.realPath) with
          | some e => ⟨Res.err (SErr.remote e), g.ad, [], calls⟩
          | none => ⟨Res.ok (rm.readLinkR g.realPath), g.ad, [], calls⟩

/-- `AssetDir.RemoveDirectory` (recursive removal via `removeDirectoryAll`). -/
def RemoveDirectory (broker : Broker) (rm : Remote) (ad : AssetDir) (path : String) :
    OpOut Unit :=
  let pathData := parsePath path
  let u := IsUniqueSu ad
  if ¬ u.2 ∧ pathData = [""] then
    ⟨Res.err SErr.permissionDenied, ad, [], []⟩
  else
    let folderName := if u.2 then u.1 else pathData.headD ""
    let pd := if u.2 then pathData else pathData.tail
    match lookupSu ad folderName with
    | none => ⟨Res.err SErr.noSystemUser, ad, [], []⟩
    | some su =>
      if ¬ validatePermission su Action.upload then
        ⟨Res.err SErr.permissionDenied, ad, [], []⟩
      else
        let g := GetSFTPAndRealPath broker ad su (strJoin "/" pd)
        match g.conn with
        | none => ⟨Res.err SErr.connectionLost, g.ad, [], g.calls⟩
        | some _ =>
          let r := removeDirectoryAll rm.fail g.realPath (rm.tree g.realPath)
          ⟨resOfFail r.1, g.ad,
           [CreateFTPLog g.ad su Operate.removeDir g.realPath r.1.isNone],
           g.calls ++ r.2.map CallEvent.remote⟩

/-- `AssetDir.Rename`.  With a visible credential layer the first segments of both
paths must agree (else `NoSuchFile`).  The source performs no permission check
here, and uses the connection without a nil check, so a broker failure on both
lookups reaches a nil-pointer dereference (`Res.crash`). -/
def Rename (broker : Broker) (rm : Remote) (ad : AssetDir)
    (oldNamePath newNamePath : String) : OpOut Unit :=
  let oldPD0 := parsePath oldNamePath
  let newPD0 := parsePath newNamePath
  let u := IsUniqueSu ad
  if ¬ u.2 ∧ oldPD0.headD "" ≠ newPD0.headD "" then
    ⟨Res.err SErr.noSuchFile, ad, [], []⟩
  else
    let folderName := if u.2 then u.1 else oldPD0.headD ""
    let oldPD := if u.2 then oldPD0 else oldPD0.tail
    let newPD := if u.2 then newPD0 else newPD0.tail
    match lookupSu ad folderName with
    | none => ⟨Res.err SErr.noSystemUser, ad, [], []⟩
    | some su =>
      let g1 := GetSFTPAndRealPath broker ad su (strJoin "/" oldPD)
      let g2 := GetSFTPAndRealPath broker g1.ad su (strJoin "/" newPD)
      if g1.conn ≠ g2.conn then
        ⟨Res.err SErr.opUnsupported, g2.ad, [], g1.calls ++ g2.calls⟩
      else
        match g1.conn with
        | none => ⟨Res.crash, g2.ad, [], g1.calls ++ g2.calls⟩
        | some _ =>
          let e := rm.fail (RemoteCall.rename g1.realPath g2.realPath)
          ⟨resOfFail e, g2.ad,
           [CreateFTPLog g2.ad su Operate.rename
             (g1.realPath ++ "=>" ++ g2.realPath) e.isNone],
           g1.calls ++ g2.calls ++
             [CallEvent.remote (RemoteCall.rename g1.realPath g2.realPath)]⟩

/-- `AssetDir.Remove`. -/
def Remove (broker : Broker) (rm : Remote) (ad : AssetDir) (path : String) :
    OpOut Unit :=
  let pathData := parsePath path
  let u := IsUniqueSu ad
  if ¬ u.2 ∧ pathData = [""] then
    ⟨Res.err SErr.permissionDenied, ad, [], []⟩
  else
    let folderName := if u.2 then u.1 else pathData.headD ""
    let pd := if u.2 then pathData else pathData.tail
    match lookupSu ad folderName with
    | none => ⟨Res.err SErr.noSystemUser, ad, [], []⟩
    | some su =>
      if ¬ validatePermission su Action.upload then
        ⟨Res.err SErr.permissionDenied, ad, [], []⟩
      else
        let g := GetSFTPAndRealPath broker ad su (strJoin "/" pd)
        match g.conn with
        | none => ⟨Res.err SErr.connectionLost, g.ad, [], g.calls⟩
        | some _ =>
          let e := rm.fail (RemoteCall.remove g.realPath)
          ⟨resOfFail e, g.ad,
           [CreateFTPLog g.ad su Operate.delete g.realPath e.isNone],
           g.calls ++ [CallEvent.remote (RemoteCall.remove g.realPath)]⟩

/-- Result of `AssetDir.Stat`: the `AssetDir` itself on the virtual root,
otherwise the remote stat result. -/
inductive StatRes where
  | self
  | info (fi : FInfo)
deriving DecidableEq, Repr

/-- `AssetDir.Stat`. -/
def Stat (broker : Broker) (rm : Remote) (ad : AssetDir) (path : String) :
    OpOut StatRes :=
  let pathData := parsePath path
  if pathData = [""] then
    ⟨Res.ok StatRes.self, ad, [], []⟩
  else
    let u := IsUniqueSu ad
    let folderName := if u.2 then u.1 else pathData.headD ""
    let pd := if u.2 then pathData else pathData.tail
    match lookupSu ad folderName with
    | none => ⟨Res.err SErr.noSystemUser, ad, [], []⟩
    | some su =>
      if ¬ validatePermission su Action.connect then
        ⟨Res.err SErr.permissionDenied, ad, [], []⟩
      else
        let g := GetSFTPAndRealPath broker ad su (strJoin "/" pd)
        match g.conn with
        | none => ⟨Res.err SErr.connectionLost, g.ad, [], g.calls⟩
        | some _ =>
          let calls := g.calls ++ [CallEvent.remote (RemoteCall.stat g.realPath)]
          match rm.fail (RemoteCall.stat g.realPath) with
          | some e => ⟨Res.err (SErr.remote e), g.ad, [], calls⟩
          | none => ⟨Res.ok (StatRes.info (rm.statR g.realPath)), g.ad, [], calls⟩

/-- `AssetDir.Symlink`.  With a visible credential layer differing first segments
yield `errNoSystemUser`; permission (Upload) is checked; like `Rename`, the
connection is used without a nil check (`Res.crash` on broker failure). -/
def Symlink (broker : Broker) (rm : Remote) (ad : AssetDir)
    (oldNamePath newNamePath : String) : OpOut Unit :=
  let oldPD0 := parsePath oldNamePath
  let newPD0 := parsePath newNamePath
  let u := IsUniqueSu ad
  if ¬ u.2 ∧ oldPD0.headD "" ≠ newPD0.headD "" then
    ⟨Res.err SErr.noSystemUser, ad, [], []⟩
  else
    let folderName := if u.2 then u.1 else oldPD0.headD ""
    let oldPD := if u.2 then oldPD0 else oldPD0.tail
    let newPD := if u.2 then newPD0 else newPD0.tail
    match lookupSu ad folderName with
    | none => ⟨Res.err SErr.noSystemUser, ad, [], []⟩
    | some su =>
      if ¬ validatePermission su Action.upload then
        ⟨Res.err SErr.permissionDenied, ad, [], []⟩
      else
        let g1 := GetSFTPAndRealPath broker ad su (strJoin "/" oldPD)
        let g2 := GetSFTPAndRealPath broker g1.ad su (strJoin "/" newPD)
        if g1.conn ≠ g2.conn then
          ⟨Res.err SErr.opUnsupported, g2.ad, [], g1.calls ++ g2.calls⟩
        else
          match g1.conn with
          | none => ⟨Res.crash, g2.ad, [], g1.calls ++ g2.calls⟩
          | some _ =>
            let e := rm.fail (RemoteCall.symlink g1.realPath g2.realPath)
            ⟨resOfFail e, g2.ad,
             [CreateFTPLog g2.ad su Operate.symlink
               (g1.realPath ++ "=>" ++ g2.realPath) e.isNone],
             g1.calls ++ g2.calls ++
               [CallEvent.remote (RemoteCall.symlink g1.realPath g2.realPath)]⟩

/-! ## Folder-name assignment (`loadSystemUsers`, `NodeDir.loadNodeAsset`) -/

/-- Length of the longest string in a list (0 for the empty list). -/
def maxLen (l : List String) : Nat :=
  l.foldr (fun s m => Nat.max s.length m) 0

/-- Every member of a list is at most `maxLen` long (termination bound for the
collision loop). -/
def length_le_maxLen : ∀ {l : List String} {s : String}, s ∈ l →
    s.length ≤ maxLen l := by
  intro l
  induction l with
  | nil => intro s h; cases h
  | cons a rest ih =>
    intro s h
    rw [List.mem_cons] at h
    have hm : maxLen (a :: rest) = Nat.max a.length (maxLen rest) := rfl
    rcases h with rfl | h
    · rw [hm]; exact Nat.le_max_left _ _
    · rw [hm]; exact le_trans (ih h) (Nat.le_max_right _ _)

/-- The collision loop of the source: starting from a candidate name, append `_`
until the name is not already used. -/
def uniqueName (used : List String) (base : String) : String :=
  if h : base ∈ used then uniqueName used (base ++ "_") else base
termination_by maxLen used + 1 - base.length
decreasing_by
  have h1 : base.length ≤ maxLen used := length_le_maxLen h
  have h2 := String.length_append base "_"
  have h3 : String.length "_" = 1 := rfl
  omega

/-- Assign folder names to a list of candidate base names in order, each made
unique against the set of previously assigned names. -/
def assignNames (acc : List String) : List String → List String
  | [] => acc
  | base :: rest => assignNames (acc ++ [uniqueName acc base]) rest

/-- Base candidate name used by `loadSystemUsers`: the credential name with every
`/` replaced by `_`. -/
def suBaseName (su : SystemUser) : String :=
  replaceSlash su.name

/-- The folder names assigned by `AssetDir.loadSystemUsers` (only credentials with
protocol `ssh` are kept, in order). -/
def loadSystemUsersFolders (sus : List SystemUser) : List String :=
  assignNames [] ((sus.filter (fun su => su.protocol == "ssh")).map suBaseName)

/-- Candidate name construction shared by `NewNodeDir` and `NewAssetDir`: replace
`/` by `_` when the label contains a `/`. -/
def nodeFolderBase (value : String) : String :=
  if containsSlash value then replaceSlash value else value

/-- The discriminated child item of `NodeDir.loadNodeAsset`: an organizational
node (its label), an asset (its hostname and whether it supports ssh), or an
item skipped for any other reason (unknown meta type, conversion error). -/
inductive NMeta where
  | node (value : String)
  | asset (hostname : String) (sshSupported : Bool)
  | unknown
deriving DecidableEq, Repr

/-- A tree item as consumed by `NodeDir.loadNodeAsset`. -/
structure NTreeItem where
  chkDisabled : Bool
  meta : NMeta
deriving DecidableEq, Repr

/-- Which base name (if any) an item contributes: disabled items, unknown meta
types and assets without ssh support are skipped. -/
def nodeItemBase (it : NTreeItem) : Option String :=
  if it.chkDisabled then none
  else
    match it.meta with
    | NMeta.node v => some (nodeFolderBase v)
    | NMeta.asset h ssh => if ssh then some (nodeFolderBase h) else none
    | NMeta.unknown => none

/-- The folder names assigned by `NodeDir.loadNodeAsset` (map keys of `dirs`). -/
def loadNodeAssetFolders (items : List NTreeItem) : List String :=
  assignNames [] (items.filterMap nodeItemBase)

/-! ## Helpers for the claims -/

def resOk {α : Type} : Res α → Bool
  | Res.ok _ => true
  | _ => false

/-- Whether a call list contains a remote SFTP call. -/
def hasRemoteCall (calls : List CallEvent) : Bool :=
  calls.any (fun c => match c with | CallEvent.remote _ => true | _ => false)

/-- Audit discipline actually implemented by the source (the amended claim C3):
an operation emits exactly one audit record when (and only when) it issued a
remote call, and that record's `is_success` is true exactly when the operation
succeeded. -/
def auditFaithful {α : Type} (o : OpOut α) : Prop :=
  o.logs.length = (if hasRemoteCall o.calls then 1 else 0) ∧
  ∀ l ∈ o.logs, l.isSuccess = resOk o.res

/-- Spec wording: strip the leading slash of the sandbox-relative remainder. -/
def stripLeadingSlash (s : String) : String := trimStart s "/"

/-- Spec wording: make a sandbox root absolute by prefixing `/` when absent. -/
def ensureAbsolute (r : String) : String :=
  if strStartsWith r "/" then r else "/" ++ r

/-! ## Concrete fixtures -/

/-- Credential with Connect only (no Upload). -/
def suConnect : SystemUser :=
  { id := "su-c", name := "dev", protocol := "ssh", sftpRoot := "", actions := [Action.connect] }

/-- Credential with All actions. -/
def suAll : SystemUser :=
  { id := "su-a", name := "root", protocol := "ssh", sftpRoot := "", actions := [Action.all] }

/-- Credential with sandbox root `data`. -/
def suData : SystemUser :=
  { id := "su-d", name := "data", protocol := "ssh", sftpRoot := "data",
    actions := [Action.all] }

/-- A fixed connection with home directory `/h/u`. -/
def connD : SftpConn := { homeDirPath := "/h/u", connId := 1 }

/-- Broker that always produces `connD`. -/
def brokerOk : Broker := fun _ => some connD

/-- Broker that always fails. -/
def brokerNone : Broker := fun _ => none

/-- Remote on which every call succeeds and every listing is empty. -/
def rmOk : Remote :=
  { fail := fun _ => none, lsR := fun _ => [], readLinkR := fun _ => ""
    statR := fun _ => { name := "", isDir := false }, tree := fun _ => [] }

/-- Asset dir with the single Connect-only credential. -/
def adConnect : AssetDir :=
  { userName := "u", userUsername := "u1", hostname := "host1", orgID := "o1"
    addr := "1.2.3.4", suMaps := [("dev", suConnect)], sftpClients := []
    showHidden := false }

/-- Asset dir with the single all-action credential. -/
def adAll : AssetDir :=
  { userName := "u", userUsername := "u1", hostname := "host1", orgID := "o1"
    addr := "1.2.3.4", suMaps := [("root", suAll)], sftpClients := []
    showHidden := false }

/-- Asset dir with the single `data`-rooted credential. -/
def adData : AssetDir :=
  { userName := "u", userUsername := "u1", hostname := "host1", orgID := "o1"
    addr := "1.2.3.4", suMaps := [("data", suData)], sftpClients := []
    showHidden := false }

/-- Asset dir with two credentials (visible credential layer). -/
def adTwo : AssetDir :=
  { userName := "u", userUsername := "u1", hostname := "host1", orgID := "o1"
    addr := "1.2.3.4", suMaps := [("alice", suAll), ("bob", suConnect)]
    sftpClients := [], showHidden := false }

/-- Asset dir with an empty credential map. -/
def adEmpty : AssetDir :=
  { userName := "u", userUsername := "u1", hostname := "host1", orgID := "o1"
    addr := "1.2.3.4", suMaps := [], sftpClients := [], showHidden := false }

/-! ## Helper lemmas -/

theorem isUniqueSu_not_one (ad : AssetDir) (h : ad.suMaps.length ≠ 1) :
    IsUniqueSu ad = ("", false) := by
  unfold IsUniqueSu getSubFolderNames
  rw [if_neg]
  simp only [List.length_map]
  omega

theorem isUniqueSu_single (ad : AssetDir) (fn : String) (su : SystemUser)
    (h : ad.suMaps = [(fn, su)]) : IsUniqueSu ad = (fn, true) := by
  unfold IsUniqueSu getSubFolderNames
  rw [h]
  rfl

theorem lookupSu_single (ad : AssetDir) (fn : String) (su : SystemUser)
    (h : ad.suMaps = [(fn, su)]) : lookupSu ad fn = some su := by
  unfold lookupSu
  rw [h]
  simp

theorem getSFTP_calls_no_remote (broker : Broker) (ad : AssetDir) (su : SystemUser)
    (p : String) : hasRemoteCall (GetSFTPAndRealPath broker ad su p).calls = false := by
  unfold GetSFTPAndRealPath
  split
  · simp [hasRemoteCall]
  · split <;> simp [hasRemoteCall]

theorem getSFTP_realPath (broker : Broker) (ad : AssetDir) (su : SystemUser)
    (p : String) (conn : SftpConn)
    (h : (GetSFTPAndRealPath broker ad su p).conn = some conn) :
    (GetSFTPAndRealPath broker ad su p).realPath = realPathFor su conn p := by
  cases hfind : ad.sftpClients.find? (fun pr => pr.1 == su.id) with
  | some pr =>
    simp [GetSFTPAndRealPath, hfind] at h ⊢
    rw [h]
  | none =>
    cases hb : broker su.id with
    | none => simp [GetSFTPAndRealPath, hfind, hb] at h
    | some c =>
      simp [GetSFTPAndRealPath, hfind, hb] at h ⊢
      rw [h]

theorem resOk_resOfFail (e : Option RemoteErr) : resOk (resOfFail e) = e.isNone := by
  cases e <;> rfl

theorem hasRemoteCall_append (a b : List CallEvent) :
    hasRemoteCall (a ++ b) = (hasRemoteCall a || hasRemoteCall b) := by
  unfold hasRemoteCall
  exact List.any_append

theorem hasRemoteCall_map_remote (l : List RemoteCall) (h : l ≠ []) :
    hasRemoteCall (l.map CallEvent.remote) = true := by
  cases l with
  | nil => exact absurd rfl h
  | cons c rest => simp [hasRemoteCall]

/-! ## Characterization of `removeDirectoryAll` as a planned trace -/

theorem tuf_nil (f : RemoteCall → Option RemoteErr) : traceUntilFail f [] = (none, []) :=
  rfl

theorem tuf_cons (f : RemoteCall → Option RemoteErr) (c : RemoteCall)
    (rest : List RemoteCall) :
    traceUntilFail f (c :: rest) =
      (match f c with
       | some e => (some e, [c])
       | none => ((traceUntilFail f rest).1, c :: (traceUntilFail f rest).2)) :=
  rfl

theorem fullTrace_eq (p : String) (t : List FTree) :
    fullTrace p t =
      RemoteCall.readDir p ::
        (fullForest p t ++ [RemoteCall.removeDirectory p]) := by
  unfold fullTrace
  rfl

theorem traceUntilFail_single (f : RemoteCall → Option RemoteErr) (c : RemoteCall) :
    traceUntilFail f [c] = (f c, [c]) := by
  rw [tuf_cons]
  cases hf : f c <;> simp [tuf_nil]

theorem traceUntilFail_append_some (f : RemoteCall → Option RemoteErr)
    (xs ys : List RemoteCall) (e : RemoteErr)
    (h : (traceUntilFail f xs).1 = some e) :
    traceUntilFail f (xs ++ ys) = (some e, (traceUntilFail f xs).2) := by
  induction xs with
  | nil => rw [tuf_nil] at h; cases h
  | cons c rest ih =>
    cases hf : f c with
    | some e2 =>
      rw [tuf_cons, hf] at h
      simp only at h
      rw [List.cons_append]
      simp [tuf_cons, hf, h]
    | none =>
      rw [tuf_cons, hf] at h
      simp only at h
      rw [List.cons_append]
      simp [tuf_cons, hf, ih h]

theorem traceUntilFail_append_none (f : RemoteCall → Option RemoteErr)
    (xs ys : List RemoteCall) (h : (traceUntilFail f xs).1 = none) :
    traceUntilFail f (xs ++ ys) =
      ((traceUntilFail f ys).1, (traceUntilFail f xs).2 ++ (traceUntilFail f ys).2) := by
  induction xs with
  | nil => simp [tuf_nil]
  | cons c rest ih =>
    cases hf : f c with
    | some e2 =>
      rw [tuf_cons, hf] at h
      simp only at h
      cases h
    | none =>
      rw [tuf_cons, hf] at h
      simp only at h
      rw [List.cons_append]
      simp [tuf_cons, hf, ih h]

mutual

theorem removeDirectoryAll_spec (f : RemoteCall → Option RemoteErr) (p : String)
    (t : List FTree) :
    removeDirectoryAll f p t = traceUntilFail f (fullTrace p t) := by
  unfold removeDirectoryAll
  rw [fullTrace_eq, tuf_cons]
  cases hf : f (RemoteCall.readDir p) with
  | some e => simp [hf]
  | none =>
    simp only [hf]
    rw [removeEntries_spec f p t]
    cases hr : (traceUntilFail f (fullForest p t)).1 with
    | some e =>
      simp only [hr]
      rw [traceUntilFail_append_some f _ _ e hr]
    | none =>
      simp only [hr]
      rw [traceUntilFail_append_none f _ _ hr]
      simp [traceUntilFail_single]
termination_by (sizeOf t, 1)

theorem removeEntries_spec (f : RemoteCall → Option RemoteErr) (p : String)
    (l : List FTree) :
    removeEntries f p l = traceUntilFail f (fullForest p l) := by
  match l with
  | [] =>
    unfold removeEntries fullForest
    rfl
  | FTree.file name :: rest =>
    unfold removeEntries fullForest
    rw [tuf_cons]
    cases hf : f (RemoteCall.remove (goJoin p name)) with
    | some e => simp [hf]
    | none =>
      simp only [hf]
      rw [removeEntries_spec f p rest]
  | FTree.dir name sub :: rest =>
    unfold removeEntries fullForest
    rw [removeDirectoryAll_spec f (goJoin p name) sub, removeEntries_spec f p rest]
    cases hs : (traceUntilFail f (fullTrace (goJoin p name) sub)).1 with
    | some e =>
      simp only [hs]
      rw [traceUntilFail_append_some f _ _ e hs]
    | none =>
      simp only [hs]
      rw [traceUntilFail_append_none f _ _ hs]
termination_by (sizeOf l, 0)

end

theorem removeDirectoryAll_trace_ne_nil (f : RemoteCall → Option RemoteErr)
    (p : String) (t : List FTree) : (removeDirectoryAll f p t).2 ≠ [] := by
  rw [removeDirectoryAll_spec, fullTrace_eq, tuf_cons]
  cases hf : f (RemoteCall.readDir p) <;> simp [hf]

/-! ## Name-uniqueness lemmas -/

theorem uniqueName_not_mem (used : List String) (base : String) :
    uniqueName used base ∉ used := by
  unfold uniqueName
  split
  · exact uniqueName_not_mem used (base ++ "_")
  · assumption
termination_by maxLen used + 1 - base.length
decreasing_by
  have h1 : base.length ≤ maxLen used := length_le_maxLen (by assumption)
  have h2 := String.length_append base "_"
  have h3 : String.length "_" = 1 := rfl
  omega

theorem assignNames_nodup : ∀ (l acc : List String), acc.Nodup →
    (assignNames acc l).Nodup := by
  intro l
  induction l with
  | nil => intro acc h; simpa [assignNames] using h
  | cons b rest ih =>
    intro acc h
    unfold assignNames
    apply ih
    rw [List.nodup_append]
    refine ⟨h, List.nodup_singleton _, ?_⟩
    intro a ha hb
    rw [List.mem_singleton] at hb
    rw [hb] at ha
    exact uniqueName_not_mem acc b ha

/-! ## Audit helpers -/

theorem hasRemoteCall_remote_singleton (c : RemoteCall) :
    hasRemoteCall [CallEvent.remote c] = true := rfl

theorem auditFaithful_no_log {α : Type} (r : Res α) (ad : AssetDir)
    (calls : List CallEvent) (h : hasRemoteCall calls = false) :
    auditFaithful ⟨r, ad, [], calls⟩ := by
  unfold auditFaithful
  constructor
  · simp [h]
  · intro l hl
    simp at hl

theorem auditFaithful_one_log {α : Type} (r : Res α) (ad : AssetDir) (log : FTPLog)
    (calls : List CallEvent) (h : hasRemoteCall calls = true)
    (h2 : log.isSuccess = resOk r) :
    auditFaithful ⟨r, ad, [log], calls⟩ := by
  unfold auditFaithful
  constructor
  · simp [h]
  · intro l hl
    rw [List.mem_singleton] at hl
    rw [hl]
    exact h2

theorem auditFaithful_Create (broker : Broker) (rm : Remote) (ad : AssetDir)
    (p : String) : auditFaithful (Create broker rm ad p) := by
  unfold Create
  dsimp only
  split
  · exact auditFaithful_no_log _ _ _ rfl
  · split
    · exact auditFaithful_no_log _ _ _ rfl
    · split
      · exact auditFaithful_no_log _ _ _ rfl
      · split
        · exact auditFaithful_no_log _ _ _ (getSFTP_calls_no_remote _ _ _ _)
        · apply auditFaithful_one_log
          · rw [hasRemoteCall_append, getSFTP_calls_no_remote]
            rfl
          · simp [CreateFTPLog, resOk_resOfFail]

theorem auditFaithful_Open (broker : Broker) (rm : Remote) (ad : AssetDir)
    (p : String) : auditFaithful (Open broker rm ad p) := by
  unfold Open
  dsimp only
  split
  · exact auditFaithful_no_log _ _ _ rfl
  · split
    · exact auditFaithful_no_log _ _ _ rfl
    · split
      · exact auditFaithful_no_log _ _ _ rfl
      · split
        · exact auditFaithful_no_log _ _ _ (getSFTP_calls_no_remote _ _ _ _)
        · apply auditFaithful_one_log
          · rw [hasRemoteCall_append, getSFTP_calls_no_remote]
            rfl
          · simp [CreateFTPLog, resOk_resOfFail]

theorem auditFaithful_MkdirAll (broker : Broker) (rm : Remote) (ad : AssetDir)
    (p : String) : auditFaithful (MkdirAll broker rm ad p) := by
  unfold MkdirAll
  dsimp only
  split
  · exact auditFaithful_no_log _ _ _ rfl
  · split
    · exact auditFaithful_no_log _ _ _ rfl
    · split
      · exact auditFaithful_no_log _ _ _ rfl
      · split
        · exact auditFaithful_no_log _ _ _ (getSFTP_calls_no_remote _ _ _ _)
        · apply auditFaithful_one_log
          · rw [hasRemoteCall_append, getSFTP_calls_no_remote]
            rfl
          · simp [CreateFTPLog, resOk_resOfFail]

theorem auditFaithful_Remove (broker : Broker) (rm : Remote) (ad : AssetDir)
    (p : String) : auditFaithful (Remove broker rm ad p) := by
  unfold Remove
  dsimp only
  split
  · exact auditFaithful_no_log _ _ _ rfl
  · split
    · exact auditFaithful_no_log _ _ _ rfl
    · split
      · exact auditFaithful_no_log _ _ _ rfl
      · split
        · exact auditFaithful_no_log _ _ _ (getSFTP_calls_no_remote _ _ _ _)
        · apply auditFaithful_one_log
          · rw [hasRemoteCall_append, getSFTP_calls_no_remote]
            rfl
          · simp [CreateFTPLog, resOk_resOfFail]

theorem auditFaithful_RemoveDirectory (broker : Broker) (rm : Remote)
    (ad : AssetDir) (p : String) : auditFaithful (RemoveDirectory broker rm ad p) := by
  unfold RemoveDirectory
  dsimp only
  split
  · exact auditFaithful_no_log _ _ _ rfl
  · split
    · exact auditFaithful_no_log _ _ _ rfl
    · split
      · exact auditFaithful_no_log _ _ _ rfl
      · split
        · exact auditFaithful_no_log _ _ _ (getSFTP_calls_no_remote _ _ _ _)
        · apply auditFaithful_one_log
          · rw [hasRemoteCall_append, getSFTP_calls_no_remote,
              hasRemoteCall_map_remote _ (removeDirectoryAll_trace_ne_nil _ _ _)]
            rfl
          · simp [CreateFTPLog, resOk_resOfFail]

theorem auditFaithful_Rename (broker : Broker) (rm : Remote) (ad : AssetDir)
    (o n : String) : auditFaithful (Rename broker rm ad o n) := by
  unfold Rename
  dsimp only
  repeat' split
  all_goals
    first
    | exact auditFaithful_no_log _ _ _ rfl
    | exact auditFaithful_no_log _ _ _ (by
        simp [hasRemoteCall_append, getSFTP_calls_no_remote])
    | exact auditFaithful_one_log _ _ _ _ (by
        simp [hasRemoteCall_append, getSFTP_calls_no_remote,
          hasRemoteCall_remote_singleton])
        (by simp [CreateFTPLog, resOk_resOfFail])

theorem auditFaithful_Symlink (broker : Broker) (rm : Remote) (ad : AssetDir)
    (o n : String) : auditFaithful (Symlink broker rm ad o n) := by
  unfold Symlink
  dsimp only
  repeat' split
  all_goals
    first
    | exact auditFaithful_no_log _ _ _ rfl
    | exact auditFaithful_no_log _ _ _ (by
        simp [hasRemoteCall_append, getSFTP_calls_no_remote])
    | exact auditFaithful_one_log _ _ _ _ (by
        simp [hasRemoteCall_append, getSFTP_calls_no_remote,
          hasRemoteCall_remote_singleton])
        (by simp [CreateFTPLog, resOk_resOfFail])

/-! ## Claim theorems -/

/-- C1: the claim says every Upload-gated operation — rename included — fails with
PermissionDenied for a credential without Upload/All and makes no remote call.
`AssetDir.Rename` performs no `validatePermission` check at all: with a
Connect-only credential the rename is forwarded to the remote (here it succeeds)
and a remote rename call is issued. -/
theorem rename_skips_upload_permission :
    validatePermission suConnect Action.upload = false ∧
    (Rename brokerOk rmOk adConnect "/a" "/b").res = Res.ok () ∧
    hasRemoteCall (Rename brokerOk rmOk adConnect "/a" "/b").calls = true :=
  ⟨rfl, rfl, rfl⟩

/-- C2: the claim says every public operation returns ConnectionLost when the
broker fails.  Eight operations do, but `Rename` and `Symlink` use the connection
without a nil check, so a broker failure reaches a nil-pointer dereference
(`Res.crash`) instead. -/
theorem broker_failure_crashes_rename_symlink :
    (Rename brokerNone rmOk adConnect "/a" "/b").res = Res.crash ∧
    (Symlink brokerNone rmOk adAll "/a" "/b").res = Res.crash ∧
    (Create brokerNone rmOk adAll "/x").res = Res.err SErr.connectionLost ∧
    (Open brokerNone rmOk adAll "/x").res = Res.err SErr.connectionLost ∧
    (MkdirAll brokerNone rmOk adAll "/x").res = Res.err SErr.connectionLost ∧
    (Remove brokerNone rmOk adAll "/x").res = Res.err SErr.connectionLost ∧
    (RemoveDirectory brokerNone rmOk adAll "/x").res = Res.err SErr.connectionLost ∧
    (ReadDir brokerNone rmOk adAll "/x").res = Res.err SErr.connectionLost ∧
    (ReadLink brokerNone rmOk adAll "/x").res = Res.err SErr.connectionLost ∧
    (Stat brokerNone rmOk adAll "/x").res = Res.err SErr.connectionLost :=
  ⟨rfl, rfl, rfl, rfl, rfl, rfl, rfl, rfl, rfl, rfl⟩

/-- C3 counterexample: a create denied for lack of the Upload action emits no
audit record at all, not one with `is_success = false` as the claim requires. -/
theorem permission_denied_emits_no_audit :
    (Create brokerOk rmOk adConnect "/x").res = Res.err SErr.permissionDenied ∧
    (Create brokerOk rmOk adConnect "/x").logs = [] :=
  ⟨rfl, rfl⟩

/-- C3 (amended): each mutating operation emits exactly one audit record when and
only when it issued a remote call, and the record's `is_success` equals the
success of the operation; invocations that fail before the remote call
(permission denial, missing credential, empty-path guard, cross-credential
mismatch, broker failure) emit no record. -/
theorem audit_record_iff_remote_call (broker : Broker) (rm : Remote) (ad : AssetDir)
    (p q : String) :
    auditFaithful (Create broker rm ad p) ∧
    auditFaithful (Open broker rm ad p) ∧
    auditFaithful (MkdirAll broker rm ad p) ∧
    auditFaithful (Remove broker rm ad p) ∧
    auditFaithful (RemoveDirectory broker rm ad p) ∧
    auditFaithful (Rename broker rm ad p q) ∧
    auditFaithful (Symlink broker rm ad p q) :=
  ⟨auditFaithful_Create broker rm ad p, auditFaithful_Open broker rm ad p,
   auditFaithful_MkdirAll broker rm ad p, auditFaithful_Remove broker rm ad p,
   auditFaithful_RemoveDirectory broker rm ad p, auditFaithful_Rename broker rm ad p q,
   auditFaithful_Symlink broker rm ad p q⟩

/-- C4 counterexample: with an empty credential map `Mode` returns `0644|DIR`,
not `0444|DIR` as the claim states for the zero-credential case. -/
theorem mode_empty_credentials_counterexample :
    adEmpty.suMaps.length = 0 ∧
    AssetDir.Mode adEmpty = 0o644 ||| ModeDir ∧
    AssetDir.Mode adEmpty ≠ 0o444 ||| ModeDir := by
  refine ⟨rfl, rfl, ?_⟩
  decide

/-- C4 (amended): `Mode` returns `0644|DIR` iff the credential map holds at most
one credential (zero or one), and `0444|DIR` iff it holds more than one. -/
theorem mode_at_most_one_credential (ad : AssetDir) :
    (AssetDir.Mode ad = 0o644 ||| ModeDir ↔ ad.suMaps.length ≤ 1) ∧
    (AssetDir.Mode ad = 0o444 ||| ModeDir ↔ 1 < ad.suMaps.length) := by
  have hne : (0o444 ||| ModeDir : Nat) ≠ 0o644 ||| ModeDir := by decide
  unfold AssetDir.Mode
  by_cases h : ad.suMaps.length > 1
  · rw [if_pos h]
    constructor
    · exact ⟨fun he => absurd he hne, fun hle => absurd h (by omega)⟩
    · exact ⟨fun _ => h, fun _ => rfl⟩
  · rw [if_neg h]
    constructor
    · exact ⟨fun _ => by omega, fun _ => rfl⟩
    · exact ⟨fun he => absurd he.symm hne, fun hgt => absurd hgt h⟩

/-- C5: whenever `GetSFTPAndRealPath` produces a connection, the rewritten real
path joins the remainder (leading slash stripped) onto the remote home directory
when the sandbox root is `""`/`"~"`/`"home"` case-insensitively, and onto the
root made absolute otherwise. -/
theorem sandbox_rewrite (broker : Broker) (ad : AssetDir) (su : SystemUser)
    (path : String) (conn : SftpConn)
    (h : (GetSFTPAndRealPath broker ad su path).conn = some conn) :
    (GetSFTPAndRealPath broker ad su path).realPath =
      (if strToLower su.sftpRoot = "home" ∨ strToLower su.sftpRoot = "~" ∨
          strToLower su.sftpRoot = "" then
        goJoin conn.homeDirPath (stripLeadingSlash path)
      else
        goJoin (ensureAbsolute su.sftpRoot) (stripLeadingSlash path)) := by
  rw [getSFTP_realPath broker ad su path conn h]
  unfold realPathFor stripLeadingSlash ensureAbsolute
  by_cases hr : strToLower su.sftpRoot = "home" ∨ strToLower su.sftpRoot = "~" ∨
      strToLower su.sftpRoot = ""
  · rw [if_pos hr, if_pos hr]
  · rw [if_neg hr, if_neg hr]
    by_cases hs : strStartsWith su.sftpRoot "/" <;> simp [hs]

/-- Witness for C5 at the spec's example: `sftp_root = "data"` maps `/x/y` to
`/data/x/y`. -/
theorem sandbox_rewrite_witness :
    (GetSFTPAndRealPath brokerOk adData suData "/x/y").conn = some connD ∧
    (GetSFTPAndRealPath brokerOk adData suData "/x/y").realPath = "/data/x/y" := by
  refine ⟨rfl, ?_⟩
  have h := sandbox_rewrite brokerOk adData suData "/x/y" connD rfl
  rw [h]
  decide

/-- C6: on the virtual root of an asset with more than one credential, `ReadDir`
returns exactly the credential folder names as synthetic directory entries and
performs no remote call and no connection setup. -/
theorem readdir_credential_layer (broker : Broker) (rm : Remote)
    (ad : AssetDir) (path : String) (h1 : 1 < ad.suMaps.length)
    (h2 : parsePath path = [""]) :
    ReadDir broker rm ad path =
      ⟨Res.ok (ad.suMaps.map (fun pr => DirEntry.fake (NewFakeFile pr.1 true))),
       ad, [], []⟩ := by
  unfold ReadDir
  rw [h2, isUniqueSu_not_one ad (by omega)]
  simp

/-- Witness for C6 on a two-credential asset. -/
theorem readdir_credential_layer_witness :
    1 < adTwo.suMaps.length ∧ parsePath "/" = [""] ∧
    ReadDir brokerOk rmOk adTwo "/" =
      ⟨Res.ok (adTwo.suMaps.map (fun pr => DirEntry.fake (NewFakeFile pr.1 true))),
       adTwo, [], []⟩ :=
  ⟨by decide, rfl,
   readdir_credential_layer brokerOk rmOk adTwo "/" (by decide) rfl⟩

/-- C7: with a visible credential layer (more than one credential), differing
first path segments make `Rename` fail with NoSuchFile and `Symlink` fail with
the no-credential error, in both cases without any outgoing call. -/
theorem cross_credential_rename_and_symlink (broker : Broker) (rm : Remote)
    (ad : AssetDir) (o n : String) (h1 : 1 < ad.suMaps.length)
    (h2 : (parsePath o).headD "" ≠ (parsePath n).headD "") :
    Rename broker rm ad o n = ⟨Res.err SErr.noSuchFile, ad, [], []⟩ ∧
    Symlink broker rm ad o n = ⟨Res.err SErr.noSystemUser, ad, [], []⟩ := by
  constructor
  · unfold Rename
    rw [isUniqueSu_not_one ad (by omega)]
    dsimp only
    split
    · rfl
    · rename_i hcond
      exact absurd ⟨by simp, h2⟩ hcond
  · unfold Symlink
    rw [isUniqueSu_not_one ad (by omega)]
    dsimp only
    split
    · rfl
    · rename_i hcond
      exact absurd ⟨by simp, h2⟩ hcond

/-- Witness for C7 on a two-credential asset with paths under different
credential folders. -/
theorem cross_credential_rename_and_symlink_witness :
    1 < adTwo.suMaps.length ∧
    (parsePath "/alice/a").headD "" ≠ (parsePath "/bob/b").headD "" ∧
    Rename brokerOk rmOk adTwo "/alice/a" "/bob/b" =
      ⟨Res.err SErr.noSuchFile, adTwo, [], []⟩ ∧
    Symlink brokerOk rmOk adTwo "/alice/a" "/bob/b" =
      ⟨Res.err SErr.noSystemUser, adTwo, [], []⟩ := by
  have h := cross_credential_rename_and_symlink brokerOk rmOk adTwo
    "/alice/a" "/bob/b" (by decide) (by decide)
  exact ⟨by decide, by decide, h.1, h.2⟩

/-- C8: `removeDirectoryAll` issues exactly the planned bottom-up call sequence
(`ReadDir` on each directory first, `Remove` for files, recursive removal for
subdirectories, the directory's own `RemoveDirectory` last), truncated at — and
returning — the first failing remote call. -/
theorem remove_directory_recursive_walk (f : RemoteCall → Option RemoteErr)
    (p : String) (t : List FTree) :
    removeDirectoryAll f p t = traceUntilFail f (fullTrace p t) ∧
    fullTrace p t =
      RemoteCall.readDir p ::
        (fullForest p t ++ [RemoteCall.removeDirectory p]) :=
  ⟨removeDirectoryAll_spec f p t, fullTrace_eq p t⟩

/-- C9: folder names assigned by `loadSystemUsers` and `loadNodeAsset` (label or
hostname with `/` replaced by `_`, then suffixed with `_` until free) are
pairwise distinct. -/
theorem folder_names_pairwise_distinct (sus : List SystemUser)
    (items : List NTreeItem) :
    (loadSystemUsersFolders sus).Nodup ∧ (loadNodeAssetFolders items).Nodup :=
  ⟨assignNames_nodup _ [] List.nodup_nil, assignNames_nodup _ [] List.nodup_nil⟩

/-- C10: with exactly one credential holding the Upload action, the destructive
operations on the empty virtual path are forwarded to the remote at the rewritten
sandbox root (`realPathFor su conn ""`), and the empty-path PermissionDenied
guard fires only when the credential count differs from one. -/
theorem empty_path_forwarded_when_unique (broker : Broker) (rm : Remote)
    (ad : AssetDir) (fn : String) (su : SystemUser) (path : String) (conn : SftpConn)
    (h1 : ad.suMaps = [(fn, su)]) (h2 : parsePath path = [""])
    (h3 : validatePermission su Action.upload = true)
    (h4 : (GetSFTPAndRealPath broker ad su "").conn = some conn) :
    (Create broker rm ad path).res =
        resOfFail (rm.fail (RemoteCall.create (realPathFor su conn ""))) ∧
    (MkdirAll broker rm ad path).res =
        resOfFail (rm.fail (RemoteCall.mkdirAll (realPathFor su conn ""))) ∧
    (Remove broker rm ad path).res =
        resOfFail (rm.fail (RemoteCall.remove (realPathFor su conn ""))) ∧
    (RemoveDirectory broker rm ad path).res =
        resOfFail (removeDirectoryAll rm.fail (realPathFor su conn "")
          (rm.tree (realPathFor su conn ""))).1 ∧
    (Create broker rm ad path).calls =
        (GetSFTPAndRealPath broker ad su "").calls ++
          [CallEvent.remote (RemoteCall.create (realPathFor su conn ""))] ∧
    (∀ ad2 : AssetDir, ad2.suMaps.length ≠ 1 →
        Create broker rm ad2 path = ⟨Res.err SErr.permissionDenied, ad2, [], []⟩ ∧
        MkdirAll broker rm ad2 path = ⟨Res.err SErr.permissionDenied, ad2, [], []⟩ ∧
        Remove broker rm ad2 path = ⟨Res.err SErr.permissionDenied, ad2, [], []⟩ ∧
        RemoveDirectory broker rm ad2 path =
          ⟨Res.err SErr.permissionDenied, ad2, [], []⟩) := by
  have hu : IsUniqueSu ad = (fn, true) := isUniqueSu_single ad fn su h1
  have hl : lookupSu ad fn = some su := lookupSu_single ad fn su h1
  have hrp : (GetSFTPAndRealPath broker ad su "").realPath = realPathFor su conn "" :=
    getSFTP_realPath broker ad su "" conn h4
  have hi : strJoin "/" [""] = "" := rfl
  refine ⟨?_, ?_, ?_, ?_, ?_, ?_⟩
  · unfold Create
    rw [h2, hu]
    simp [hi, hl, h3, h4, hrp]
  · unfold MkdirAll
    rw [h2, hu]
    simp [hi, hl, h3, h4, hrp]
  · unfold Remove
    rw [h2, hu]
    simp [hi, hl, h3, h4, hrp]
  · unfold RemoveDirectory
    rw [h2, hu]
    simp [hi, hl, h3, h4, hrp]
  · unfold Create
    rw [h2, hu]
    simp [hi, hl, h3, h4, hrp]
  · intro ad2 hne
    refine ⟨?_, ?_, ?_, ?_⟩
    · unfold Create
      rw [h2, isUniqueSu_not_one ad2 hne]
      simp
    · unfold MkdirAll
      rw [h2, isUniqueSu_not_one ad2 hne]
      simp
    · unfold Remove
      rw [h2, isUniqueSu_not_one ad2 hne]
      simp
    · unfold RemoveDirectory
      rw [h2, isUniqueSu_not_one ad2 hne]
      simp

/-- Witness for C10: the single all-action credential, empty virtual path. -/
theorem empty_path_forwarded_when_unique_witness :
    adAll.suMaps = [("root", suAll)] ∧ parsePath "/" = [""] ∧
    validatePermission suAll Action.upload = true ∧
    (GetSFTPAndRealPath brokerOk adAll suAll "").conn = some connD ∧
    (Create brokerOk rmOk adAll "/").res =
      resOfFail (rmOk.fail (RemoteCall.create (realPathFor suAll connD ""))) := by
  refine ⟨rfl, rfl, rfl, rfl, ?_⟩
  exact (empty_path_forwarded_when_unique brokerOk rmOk adAll "root" suAll "/" connD
    rfl rfl rfl rfl).1

end Koko
